import Mathlib

/-!
Verification of the horizon reference manager of the MPC trajectory
tracker (`mpc_controller/references.cpp`).

The ACADO solver buffers are modelled as total functions `Nat → ℝ`
(the C arrays `acadoVariables.x/x0/u/y/yN/W/WN`), indexed exactly as the
source indexes them (row-major, `NY = NX = NYN = 4` as fixed by the
`static_assert`s in the source; the horizon length `N = ACADO_N` and the
control dimension `NU = ACADO_NU` are codegen constants and are kept as
parameters).  Operations that can `throw std::logic_error` are modelled
as `Except String`-valued functions carrying the source's message.
-/

namespace Mpc

/-- Constant `ACADO_NX` (state dimension); fixed to 4 by a `static_assert`. -/
def NX : Nat := 4

/-- Constant `ACADO_NY` (stage reference dimension); fixed to 4 by a `static_assert`. -/
def NY : Nat := 4

/-- Constant `ACADO_NYN` (terminal reference dimension); fixed to 4 by a `static_assert`. -/
def NYN : Nat := 4

/-- Constant `IDX_HEADING`: index of the heading field in a state vector. -/
def IDX_HEADING : Nat := 2

/-- A stage/terminal weight profile (`StateWeight`): `pose()`, `heading()`,
`longitudinal_velocity()` accessors of the configuration record. -/
structure StateWeight where
  pose : ℝ
  heading : ℝ
  longitudinal_velocity : ℝ

/-- Modelled from the spec: the externally supplied heading representation of
a waypoint.  `motion_common` (the home of the concrete representation and of
`motion_common::to_angle`) is not part of the sources; the spec's data model
says a waypoint heading is a "signed angle" and that the conversion is a
precision-preserving bidirectional mapping, so the representation is taken to
be the signed radian value itself. -/
def Heading : Type := ℝ

/-- A trajectory waypoint: `x`, `y`, `heading`, `longitudinal_velocity_mps`. -/
structure Point where
  x : ℝ
  y : ℝ
  heading : ℝ
  longitudinal_velocity_mps : ℝ

/-- A reference trajectory: the ordered waypoint sequence `traj.points`. -/
structure Trajectory where
  points : List Point

/-- Modelled from the spec: `motion_common::to_angle`, the conversion from the
trajectory's heading representation to the internal signed-radian scalar.
With the representation itself a signed angle (see `Heading`), the
precision-preserving conversion is the identity. -/
def to_angle (h : ℝ) : ℝ := h

/-- Modelled from the spec: the inverse direction of the bidirectional angle
conversion (external representation from the internal radian scalar). -/
def from_angle (θ : ℝ) : ℝ := θ

/-- The solver's variable block `acadoVariables`: flat row-major arrays
`x` (states, `(N+1)*NX` entries), `x0` (current measured state, `NX` entries),
`u` (controls, `N*NU`), `y` (stage references, `N*NY`), `yN` (terminal
reference, `NYN`), `W` (stage weight matrices, `N*NY*NY`), `WN` (terminal
weight matrix, `NYN*NYN`). -/
structure AcadoVars where
  x : Nat → ℝ
  x0 : Nat → ℝ
  u : Nat → ℝ
  y : Nat → ℝ
  yN : Nat → ℝ
  W : Nat → ℝ
  WN : Nat → ℝ

/-- Returns `true` exactly on `Except.error` results (a thrown `std::logic_error`). -/
def isErr {α : Type} (r : Except String α) : Bool :=
  match r with
  | Except.error _ => true
  | Except.ok _ => false

/-- The three `std::copy` calls of `MpcController::advance_problem` (after the
bound check): shift the state trajectory `x` left by `count` stages starting
at stage 1 (stage 0, the measurement slot, is not a copy target), and shift
`y` and `u` left by `count` stages starting at stage 0. -/
def advance_write (N NU count : Nat) (v : AcadoVars) : AcadoVars :=
  { v with
    x := fun j => if NX ≤ j ∧ j < NX + NX * (N - count) then v.x (j + NX * count) else v.x j,
    y := fun j => if j < NY * (N - count) then v.y (j + NY * count) else v.y j,
    u := fun j => if j < NU * (N - count) then v.u (j + NU * count) else v.u j }

/-- Source `MpcController::advance_problem(count)`: the bound check followed by the
three shifting `std::copy` calls of `advance_write`. -/
def advance_problem (N NU count : Nat) (v : AcadoVars) : Except String AcadoVars :=
  if N ≤ count then
    Except.error "Advancing count too high! Likely indexing bug somewhere"
  else
    Except.ok (advance_write N NU count v)

/-- The loop body of `MpcController::apply_nominal_weights` (after the bound
check, with `e` the already-clamped end): writes `cfg`'s three values onto the
four diagonal entries `i*NY*NY + (k*NY + k)` (`k = 0..3`) of every stage
weight matrix `i ∈ [start, e)`.  A flat entry `j` belongs to stage
`j / (NY*NY)` at in-matrix offset `j % (NY*NY)`; the diagonal offsets are
`0`, `5`, `10`, `15`. -/
def apply_nominal_write (cfg : StateWeight) (start e : Nat) (v : AcadoVars) :
    AcadoVars :=
  { v with
    W := fun j =>
      if start ≤ j / (NY * NY) ∧ j / (NY * NY) < e then
        if j % (NY * NY) = 0 * NY + 0 then cfg.pose
        else if j % (NY * NY) = 1 * NY + 1 then cfg.pose
        else if j % (NY * NY) = 2 * NY + 2 then cfg.heading
        else if j % (NY * NY) = 3 * NY + 3 then cfg.longitudinal_velocity
        else v.W j
      else v.W j }

/-- Source `MpcController::apply_nominal_weights(cfg, start, end)`: clamps `end` to
the horizon (`end = std::min(end, HORIZON)`), fails when `start > end`, and
otherwise performs the loop of `apply_nominal_write`. -/
def apply_nominal_weights (N : Nat) (cfg : StateWeight) (start end_ : Nat)
    (v : AcadoVars) : Except String AcadoVars :=
  let e := min end_ N
  if start > e then
    Except.error "Inconsistent bounds: apply! There is likely an indexing bug somewhere"
  else
    Except.ok (apply_nominal_write cfg start e v)

/-- The `std::fill` of `MpcController::zero_nominal_weights` (after the bound
check, with `e` the already-clamped end): zeroes the whole flat range
`W[start*NY*NY, e*NY*NY)`. -/
def zero_nominal_write (start e : Nat) (v : AcadoVars) : AcadoVars :=
  { v with
    W := fun j =>
      if start * (NY * NY) ≤ j ∧ j < e * (NY * NY) then 0 else v.W j }

/-- Source `MpcController::zero_nominal_weights(start, end)`: clamps `end` to the
horizon (`end = std::min(HORIZON, end)`), fails when `start > end`, and
otherwise performs the `std::fill` of `zero_nominal_write`. -/
def zero_nominal_weights (N start end_ : Nat) (v : AcadoVars) :
    Except String AcadoVars :=
  let e := min N end_
  if start > e then
    Except.error "Inconsistent bounds: zero! There is likely an indexing bug somewhere"
  else
    Except.ok (zero_nominal_write start e v)

/-- Source `MpcController::set_terminal_weights(cfg)`: writes `cfg`'s values onto the
four diagonal entries `k*NYN + k` of the terminal weight matrix `WN`. -/
def set_terminal_weights (cfg : StateWeight) (v : AcadoVars) : AcadoVars :=
  { v with WN := fun j =>
      if j = 0 * NYN + 0 then cfg.pose
      else if j = 1 * NYN + 1 then cfg.pose
      else if j = 2 * NYN + 2 then cfg.heading
      else if j = 3 * NYN + 3 then cfg.longitudinal_velocity
      else v.WN j }

/-- Source `MpcController::zero_terminal_weights()`: zeroes the four diagonal entries
of the terminal weight matrix `WN` (and nothing else). -/
def zero_terminal_weights (v : AcadoVars) : AcadoVars :=
  { v with WN := fun j =>
      if j = 0 * NYN + 0 ∨ j = 1 * NYN + 1 ∨ j = 2 * NYN + 2 ∨ j = 3 * NYN + 3 then 0
      else v.WN j }

/-- Source `MpcController::apply_terminal_weights(idx)`: fails when `idx ≥ HORIZON`,
otherwise applies the configured terminal profile to the single stage `idx`
via `apply_nominal_weights(terminal, idx, idx + 1)`. -/
def apply_terminal_weights (N : Nat) (terminal : StateWeight) (idx : Nat)
    (v : AcadoVars) : Except String AcadoVars :=
  if idx ≥ N then
    Except.error "Out of bounds terminal weight index"
  else
    apply_nominal_weights N terminal idx (idx + 1) v

/-- Source `MpcController::apply_weights(cfg)`: the nominal profile over the whole
horizon `[0, HORIZON)` followed by `set_terminal_weights(terminal)`. -/
def apply_weights (N : Nat) (nominal terminal : StateWeight) (v : AcadoVars) :
    Except String AcadoVars :=
  match apply_nominal_weights N nominal 0 N v with
  | Except.error e => Except.error e
  | Except.ok v1 => Except.ok (set_terminal_weights terminal v1)

/-- The copy loop of `MpcController::set_reference` (after the bound check):
for `i ∈ [0, count)`, copies waypoint `traj_start + i` into stage reference
`y_start + i`: `x` to offset `IDY_X = 0`, `y` to `IDY_Y = 1`,
`longitudinal_velocity_mps` to `IDY_VEL_LONG = 3`, and
`to_angle(pt.heading)` to `IDY_HEADING = 2`.  A flat entry `j` belongs to
stage `j / NY` at offset `j % NY`. -/
def set_reference_write (traj : Trajectory) (y_start traj_start count : Nat)
    (v : AcadoVars) : AcadoVars :=
  { v with
    y := fun j =>
      if y_start ≤ j / NY ∧ j / NY < y_start + count then
        let pt := traj.points.getD (traj_start + (j / NY - y_start)) ⟨0, 0, 0, 0⟩
        if j % NY = 0 then pt.x
        else if j % NY = 1 then pt.y
        else if j % NY = 2 then to_angle pt.heading
        else pt.longitudinal_velocity_mps
      else v.y j }

/-- Source `MpcController::set_reference(traj, y_start, traj_start, count)`: the
bound check followed by the copy loop of `set_reference_write`. -/
def set_reference (N : Nat) (traj : Trajectory) (y_start traj_start count : Nat)
    (v : AcadoVars) : Except String AcadoVars :=
  if y_start + count > N ∨ traj_start + count > traj.points.length then
    Except.error "set_reference would go out of bounds! Indexing bug likely!"
  else
    Except.ok (set_reference_write traj y_start traj_start count v)

/-- Source `MpcController::set_terminal_reference(pt)`: copies one waypoint into the
terminal reference `yN` with the same field mapping as `set_reference`. -/
def set_terminal_reference (pt : Point) (v : AcadoVars) : AcadoVars :=
  { v with yN := fun j =>
      if j = 0 then pt.x
      else if j = 1 then pt.y
      else if j = 3 then pt.longitudinal_velocity_mps
      else if j = 2 then to_angle pt.heading
      else v.yN j }

/-- The expression `traj.points.size() - 1U` as the source computes it: `size_t` arithmetic,
so an empty trajectory underflows to `2^64 - 1` instead of clamping at 0. -/
def size_t_sub_one (n : Nat) : Nat := (n + (2 ^ 64 - 1)) % 2 ^ 64

/-- The quantity `traj_start` as computed inside `MpcController::backfill_reference`:
`std::min(curr_idx + ref_start, max_pts)` with `ref_start = HORIZON - count`. -/
def backfill_traj_start (N : Nat) (traj : Trajectory) (curr_idx count : Nat) : Nat :=
  min (curr_idx + (N - count)) traj.points.length

/-- The quantity `safe_count` as computed inside `MpcController::backfill_reference`:
`traj_end - traj_start` with `traj_end = std::min(traj_start + count, max_pts)`. -/
def backfill_safe_count (N : Nat) (traj : Trajectory) (curr_idx count : Nat) : Nat :=
  min (backfill_traj_start N traj curr_idx count + count) traj.points.length -
    backfill_traj_start N traj curr_idx count

/-- Source `MpcController::backfill_reference(count)`: fails when `count ≥ HORIZON`;
otherwise pulls `safe_count` waypoints starting at `traj_start` into the tail
stages starting at `ref_start = HORIZON - count`; when the trajectory was
exhausted (`safe_count < count`) zeroes the weights of the last `remainder`
stages and applies the terminal profile to stage
`HORIZON - (remainder + 1)`; finally either previews waypoint
`traj_start + count` as terminal reference or zeroes the terminal weights. -/
def backfill_reference (N : Nat) (terminal : StateWeight) (traj : Trajectory)
    (curr_idx count : Nat) (v : AcadoVars) : Except String AcadoVars :=
  if N ≤ count then
    Except.error "Backfill count too high! Likely indexing bug somewhere"
  else
    match set_reference N traj (N - count) (backfill_traj_start N traj curr_idx count)
        (backfill_safe_count N traj curr_idx count) v with
    | Except.error e => Except.error e
    | Except.ok v1 =>
      match
        (if backfill_safe_count N traj curr_idx count < count then
          match zero_nominal_weights N
              (N - (count - backfill_safe_count N traj curr_idx count)) N v1 with
          | Except.error e => Except.error e
          | Except.ok v2 =>
            apply_terminal_weights N terminal
              (N - ((count - backfill_safe_count N traj curr_idx count) + 1)) v2
        else Except.ok v1) with
      | Except.error e => Except.error e
      | Except.ok v3 =>
        if backfill_traj_start N traj curr_idx count + count < traj.points.length then
          Except.ok (set_terminal_reference
            (traj.points.getD (backfill_traj_start N traj curr_idx count + count)
              ⟨0, 0, 0, 0⟩) v3)
        else
          Except.ok (zero_terminal_weights v3)

/-- The quantity `t_max = std::min(traj.points.size(), HORIZON)` as computed inside
`MpcController::handle_new_trajectory`. -/
def t_max (N : Nat) (traj : Trajectory) : Nat := min traj.points.length N

/-- The trajectory actually used by `handle_new_trajectory`: the Sampler's
output when a resampler is configured, the input otherwise. -/
def effective_traj (sampler : Option (Trajectory → Trajectory))
    (trajectory : Trajectory) : Trajectory :=
  match sampler with
  | some f => f trajectory
  | none => trajectory

/-- The body of `MpcController::handle_new_trajectory` after the choice of
effective trajectory `traj`: populates references and nominal weights over
`t_max` stages, zeroes the weights of the unpopulated tail, and either
relocates the terminal profile onto stage `|traj| - 1` (computed in `size_t`
arithmetic) after zeroing the terminal weights, or previews waypoint `t_max`
as terminal reference. -/
def handle_new_core (N : Nat) (nominal terminal : StateWeight)
    (traj : Trajectory) (v : AcadoVars) : Except String (AcadoVars × Trajectory) :=
  match set_reference N traj 0 0 (t_max N traj) v with
  | Except.error e => Except.error e
  | Except.ok v1 =>
    match apply_nominal_weights N nominal 0 (t_max N traj) v1 with
    | Except.error e => Except.error e
    | Except.ok v2 =>
      match (if t_max N traj < N then zero_nominal_weights N (t_max N traj) N v2
          else Except.ok v2) with
      | Except.error e => Except.error e
      | Except.ok v3 =>
        if t_max N traj ≥ traj.points.length then
          match apply_terminal_weights N terminal (size_t_sub_one traj.points.length)
              (zero_terminal_weights v3) with
          | Except.error e => Except.error e
          | Except.ok v4 => Except.ok (v4, traj)
        else
          Except.ok (set_terminal_reference (traj.points.getD (t_max N traj) ⟨0, 0, 0, 0⟩) v3,
            traj)

/-- Source `MpcController::handle_new_trajectory(trajectory)`: optionally resamples
through the external Sampler (modelled from the spec as an arbitrary function
applied when `m_interpolated_trajectory` is configured, since
`motion_common::sample` is not part of the sources), then runs
`handle_new_core` on the effective trajectory.  The reset of
`m_last_reference_index` is controller bookkeeping outside the solver buffers
and is not modelled.  Returns the effective trajectory alongside the updated
buffers. -/
def handle_new_trajectory (N : Nat) (nominal terminal : StateWeight)
    (sampler : Option (Trajectory → Trajectory)) (trajectory : Trajectory)
    (v : AcadoVars) : Except String (AcadoVars × Trajectory) :=
  handle_new_core N nominal terminal (effective_traj sampler trajectory) v

/-- Models `std::atan2(y, x)` on reals: the argument of the complex number
`x + y·i`, valued in `(-π, π]` (with `atan2 0 0 = 0`, as `Complex.arg 0 = 0`). -/
noncomputable def atan2 (y x : ℝ) : ℝ := Complex.arg ⟨x, y⟩

/-- One application of the lambda `fn` inside
`MpcController::ensure_reference_consistency`: from the running `last_angle`
and a stored reference angle, produce the replacement
`last_angle + atan2(sin(ref - last_angle), cos(ref - last_angle))` and the
`|new - old|` contribution added to `err`. -/
noncomputable def unwrap_step (last_angle ref : ℝ) : ℝ × ℝ :=
  (last_angle + atan2 (Real.sin (ref - last_angle)) (Real.cos (ref - last_angle)),
   |last_angle + atan2 (Real.sin (ref - last_angle)) (Real.cos (ref - last_angle)) - ref|)

/-- The `for` loop of `ensure_reference_consistency`: applies `fn` to the
heading slot `NY*i + IDY_HEADING` of each listed stage in order, threading the
updated reference array, `last_angle`, and the accumulated `err`. -/
noncomputable def consistency_fold :
    List Nat → (Nat → ℝ) → ℝ → ℝ → (Nat → ℝ) × ℝ × ℝ
  | [], y, last, err => (y, last, err)
  | i :: rest, y, last, err =>
      consistency_fold rest
        (Function.update y (NY * i + 2) (unwrap_step last (y (NY * i + 2))).1)
        (unwrap_step last (y (NY * i + 2))).1
        (err + (unwrap_step last (y (NY * i + 2))).2)

/-- Source `MpcController::ensure_reference_consistency(horizon)`: clamps `horizon`
to `HORIZON`, initialises `last_angle` from `x0[IDX_HEADING]`, runs `fn` over
the stage heading references in increasing order and once more over the
terminal reference heading, and returns (the mutated buffers and)
`err > 3.14159` — the source compares against the literal
`AcadoReal{3.14159}`, not against π itself. -/
noncomputable def ensure_reference_consistency (N horizon : Nat) (v : AcadoVars) :
    AcadoVars × Bool :=
  let h := min horizon N
  let r := consistency_fold (List.range h) v.y (v.x0 IDX_HEADING) 0
  let pN := unwrap_step r.2.1 (v.yN 2)
  ({ v with y := r.1, yN := Function.update v.yN 2 pN.1 },
   if r.2.2 + pN.2 > (3.14159 : ℝ) then true else false)

/-- A fixed all-zero variable block (the zero-initialised static C arrays),
used as a concrete evaluation point. -/
noncomputable def v0 : AcadoVars :=
  { x := fun _ => 0, x0 := fun _ => 0, u := fun _ => 0, y := fun _ => 0,
    yN := fun _ => 0, W := fun _ => 0, WN := fun _ => 0 }

/-- Conclusion of the shift-correctness claim: `advance_problem count`
succeeds and, for every stage `i < N - count`, the new stage reference `i`
(all `NY` components), the new control `i` (all `NU` components) and the new
state `i+1` (all `NX` components) hold the pre-call values of stage
`i + count` (resp. state `i + 1 + count`). -/
def AdvanceShifts (N NU count : Nat) (v : AcadoVars) : Prop :=
  ∃ v', advance_problem N NU count v = Except.ok v' ∧
    ∀ i, i < N - count →
      (∀ r, r < NY → v'.y (NY * i + r) = v.y (NY * (i + count) + r)) ∧
      (∀ r, r < NU → v'.u (NU * i + r) = v.u (NU * (i + count) + r)) ∧
      (∀ r, r < NX → v'.x (NX * (i + 1) + r) = v.x (NX * (i + 1 + count) + r))

/-- A concrete weight profile used as evaluation point. -/
noncomputable def sw1 : StateWeight := ⟨1, 2, 3⟩

/-- A concrete two-point trajectory used as evaluation point. -/
noncomputable def traj2 : Trajectory := ⟨[⟨42, 43, 44, 45⟩, ⟨46, 47, 48, 49⟩]⟩

/-- A concrete five-point trajectory used as evaluation point. -/
noncomputable def traj5 : Trajectory :=
  ⟨[⟨10, 11, 12, 13⟩, ⟨20, 21, 22, 23⟩, ⟨30, 31, 32, 33⟩,
    ⟨40, 41, 42, 43⟩, ⟨50, 51, 52, 53⟩]⟩

/-- The empty trajectory (zero waypoints). -/
noncomputable def trajEmpty : Trajectory := ⟨[]⟩

/-- A variable block with every stage reference slot `7` and every weight
entry `1`, used to detect writes. -/
noncomputable def vMark : AcadoVars :=
  { x := fun _ => 0, x0 := fun _ => 0, u := fun _ => 0, y := fun _ => 7,
    yN := fun _ => 7, W := fun _ => 1, WN := fun _ => 1 }

/-- Conclusion of the frame claim for `advance_problem`: the call succeeds,
does not touch `state[0]` (neither the first `NX` entries of `x` nor the
measurement array `x0`), and leaves all stage weights, the terminal weight
and the terminal reference unchanged. -/
def AdvanceFrame (N NU count : Nat) (v : AcadoVars) : Prop :=
  ∃ v', advance_problem N NU count v = Except.ok v' ∧
    (∀ r, r < NX → v'.x r = v.x r) ∧ v'.x0 = v.x0 ∧
    v'.W = v.W ∧ v'.WN = v.WN ∧ v'.yN = v.yN

/-- Conclusion of the reference-copy claim: `set_reference` succeeds and, for
every `i < count`, stage `y_start + i` holds the `x`, `y` and longitudinal
velocity of waypoint `traj_start + i` verbatim, its heading slot holds
`to_angle` of the waypoint's heading, and the stored heading round-trips
through the angle conversion within `1e-6`. -/
def SetRefCopies (N : Nat) (traj : Trajectory) (y_start traj_start count : Nat)
    (v : AcadoVars) : Prop :=
  ∃ v', set_reference N traj y_start traj_start count v = Except.ok v' ∧
    ∀ i, i < count →
      v'.y (NY * (y_start + i) + 0) = (traj.points.getD (traj_start + i) ⟨0, 0, 0, 0⟩).x ∧
      v'.y (NY * (y_start + i) + 1) = (traj.points.getD (traj_start + i) ⟨0, 0, 0, 0⟩).y ∧
      v'.y (NY * (y_start + i) + 3) =
        (traj.points.getD (traj_start + i) ⟨0, 0, 0, 0⟩).longitudinal_velocity_mps ∧
      v'.y (NY * (y_start + i) + 2) =
        to_angle (traj.points.getD (traj_start + i) ⟨0, 0, 0, 0⟩).heading ∧
      |from_angle (v'.y (NY * (y_start + i) + 2)) -
        (traj.points.getD (traj_start + i) ⟨0, 0, 0, 0⟩).heading| ≤ 1e-6

/-- Conclusion of the backfill-safety claim: once past its own count check,
`backfill_reference` succeeds, its `set_reference` call satisfies
`ref_start + safe_count ≤ N` and `traj_start + safe_count ≤ |traj|`, its
`zero_nominal_weights` call satisfies `N - remainder ≤ N`, and (when taken)
its `apply_terminal_weights` call receives an index in `[0, N)`. -/
def BackfillSafe (N : Nat) (terminal : StateWeight) (traj : Trajectory)
    (curr_idx count : Nat) (v : AcadoVars) : Prop :=
  (∃ v', backfill_reference N terminal traj curr_idx count v = Except.ok v') ∧
  (N - count) + backfill_safe_count N traj curr_idx count ≤ N ∧
  backfill_traj_start N traj curr_idx count +
    backfill_safe_count N traj curr_idx count ≤ traj.points.length ∧
  (backfill_safe_count N traj curr_idx count < count →
    1 ≤ count - backfill_safe_count N traj curr_idx count ∧
    N - (count - backfill_safe_count N traj curr_idx count) ≤ N ∧
    N - ((count - backfill_safe_count N traj curr_idx count) + 1) < N)

/-- Only the diagonal entries of the stage weight matrices and of the
terminal weight matrix are (possibly) non-zero.  In a row-major `NY × NY`
matrix the diagonal offsets are the multiples of `NY + 1`. -/
def OffDiagZero (N : Nat) (v : AcadoVars) : Prop :=
  (∀ j, j < N * (NY * NY) → j % (NY * NY) % (NY + 1) ≠ 0 → v.W j = 0) ∧
  (∀ j, j < NYN * NYN → j % (NYN + 1) ≠ 0 → v.WN j = 0)

/-- A fallible operation preserves `OffDiagZero` when every successful result
satisfies it. -/
def PreservesOffDiag (N : Nat) (r : Except String AcadoVars) : Prop :=
  ∀ w, r = Except.ok w → OffDiagZero N w

/-- Variant of `PreservesOffDiag` for operations also returning the used trajectory. -/
def PreservesOffDiagHN (N : Nat) (r : Except String (AcadoVars × Trajectory)) : Prop :=
  ∀ p, r = Except.ok p → OffDiagZero N p.1

/-- Conclusion of the diagonal-weight invariant claim: starting from a buffer
whose stage and terminal weight matrices are zero off the diagonal, every
public operation leaves them zero off the diagonal. -/
def OffDiagPreservedAll (N NU : Nat) (v : AcadoVars) (nom term : StateWeight)
    (traj : Trajectory) (start end_ idx count y_start traj_start curr_idx horizon : Nat)
    (pt : Point) (sampler : Option (Trajectory → Trajectory)) : Prop :=
  PreservesOffDiag N (apply_nominal_weights N nom start end_ v) ∧
  PreservesOffDiag N (zero_nominal_weights N start end_ v) ∧
  OffDiagZero N (set_terminal_weights term v) ∧
  OffDiagZero N (zero_terminal_weights v) ∧
  PreservesOffDiag N (apply_terminal_weights N term idx v) ∧
  PreservesOffDiag N (apply_weights N nom term v) ∧
  PreservesOffDiag N (set_reference N traj y_start traj_start count v) ∧
  OffDiagZero N (set_terminal_reference pt v) ∧
  PreservesOffDiagHN N (handle_new_trajectory N nom term sampler traj v) ∧
  PreservesOffDiag N (advance_problem N NU count v) ∧
  PreservesOffDiag N (backfill_reference N term traj curr_idx count v) ∧
  OffDiagZero N (ensure_reference_consistency N horizon v).1

/-- Conclusion of the short-trajectory claim at `N = 10`, `|traj| = 5`:
`handle_new_trajectory` succeeds, leaves every stage weight entry of stages
`[5, 10)` (flat range `[80, 160)`) zero, puts the terminal profile on the
diagonal of stage 4 (flat entries 64, 69, 74, 79), and leaves the whole
terminal weight matrix zero. -/
def HandleShortTraj (nom term : StateWeight) (traj : Trajectory)
    (v : AcadoVars) : Prop :=
  ∃ p : AcadoVars × Trajectory,
    handle_new_trajectory 10 nom term none traj v = Except.ok p ∧
    (∀ j, 80 ≤ j → j < 160 → p.1.W j = 0) ∧
    p.1.W 64 = term.pose ∧ p.1.W 69 = term.pose ∧ p.1.W 74 = term.heading ∧
    p.1.W 79 = term.longitudinal_velocity ∧
    (∀ j, j < 16 → p.1.WN j = 0)

/-- Conclusion of the (amended) backfill-exhaustion claim at `N = 10`,
`count = 5`, `|traj| = curr_idx + 2`: `backfill_reference` succeeds, copies no
trajectory point (the stage references are untouched), zeroes the stage
weights of all five tail stages `[5, 10)` (flat range `[80, 160)`), applies
the terminal profile to the diagonal of stage 4 — the stage immediately
preceding the zeroed block — and zeroes the terminal weight diagonal. -/
def BackfillExhausted (term : StateWeight) (traj : Trajectory)
    (curr_idx : Nat) (v : AcadoVars) : Prop :=
  ∃ v', backfill_reference 10 term traj curr_idx 5 v = Except.ok v' ∧
    v'.y = v.y ∧
    (∀ j, 80 ≤ j → j < 160 → v'.W j = 0) ∧
    v'.W 64 = term.pose ∧ v'.W 69 = term.pose ∧ v'.W 74 = term.heading ∧
    v'.W 79 = term.longitudinal_velocity ∧
    v'.WN 0 = 0 ∧ v'.WN 5 = 0 ∧ v'.WN 10 = 0 ∧ v'.WN 15 = 0

/-- Stage reference headings for the unwrap scenario: stage 0 holds `-3.0`
rad, stage 1 holds `3.0` rad (all other slots zero). -/
noncomputable def yEx : Nat → ℝ := fun j => if j = 2 then -3 else if j = 6 then 3 else 0

/-- Terminal reference heading for the unwrap scenario: already angularly
continuous with the unwrapped stage 1 (`3 - 2π`), so it contributes nothing
to `err`. -/
noncomputable def yNEx : Nat → ℝ := fun j => if j = 2 then 3 - 2 * Real.pi else 0

/-- The unwrap scenario buffer: measured heading `x0[2] = -3.0`, stage
headings `-3.0` then `3.0`, terminal heading `3 - 2π`. -/
noncomputable def exV6 : AcadoVars :=
  { x := fun _ => 0, x0 := fun j => if j = 2 then -3 else 0, u := fun _ => 0,
    y := yEx, yN := yNEx, W := fun _ => 0, WN := fun _ => 0 }

/-- Claim C1: For every `count` with `0 ≤ count < N`, after
`advance_problem(count)`: for every `i` in `[0, N-count)`, `stage_ref[i]`
equals the pre-call `stage_ref[i+count]`, `control[i]` equals the pre-call
`control[i+count]`, and `state[i+1]` equals the pre-call `state[i+1+count]`. -/
theorem claim_C1_advance_shift (N NU count : Nat) (v : AcadoVars)
    (h : count < N) : AdvanceShifts N NU count v := by
  refine ⟨advance_write N NU count v, by rw [advance_problem, if_neg (by omega)], ?_⟩
  intro i hi
  simp only [advance_write]
  refine ⟨?_, ?_, ?_⟩
  · intro r hr
    have hc : NY * i + r < NY * (N - count) := by
      have : NY * i + r < NY * (i + 1) := by simp [NY] at hr ⊢; omega
      exact lt_of_lt_of_le this (Nat.mul_le_mul_left _ (by omega))
    simp only [if_pos hc]
    congr 1
    ring
  · intro r hr
    have hc : NU * i + r < NU * (N - count) := by
      have h1 : NU * i + r < NU * (i + 1) := by
        have : NU * (i + 1) = NU * i + NU := by ring
        omega
      exact lt_of_lt_of_le h1 (Nat.mul_le_mul_left _ (by omega))
    simp only [if_pos hc]
    congr 1
    ring
  · intro r hr
    have hc : NX ≤ NX * (i + 1) + r ∧ NX * (i + 1) + r < NX + NX * (N - count) := by
      simp [NX] at hr ⊢; omega
    simp only [if_pos hc]
    congr 1
    simp [NX]; ring

/-- Witness for C1 at `N = 2`, `NU = 1`, `count = 1` on the all-zero block. -/
theorem claim_C1_advance_shift_witness :
    1 < 2 ∧ AdvanceShifts 2 1 1 v0 :=
  ⟨by decide, claim_C1_advance_shift 2 1 1 v0 (by decide)⟩

lemma apply_nominal_weights_ok (N : Nat) (cfg : StateWeight) (s e : Nat)
    (v : AcadoVars) (h : s ≤ min e N) :
    apply_nominal_weights N cfg s e v =
      Except.ok (apply_nominal_write cfg s (min e N) v) := by
  simp only [apply_nominal_weights]
  rw [if_neg (by omega)]

lemma zero_nominal_weights_ok (N s e : Nat) (v : AcadoVars) (h : s ≤ min N e) :
    zero_nominal_weights N s e v = Except.ok (zero_nominal_write s (min N e) v) := by
  simp only [zero_nominal_weights]
  rw [if_neg (by omega)]

lemma set_reference_ok (N : Nat) (traj : Trajectory) (a b c : Nat) (v : AcadoVars)
    (h1 : a + c ≤ N) (h2 : b + c ≤ traj.points.length) :
    set_reference N traj a b c v = Except.ok (set_reference_write traj a b c v) := by
  simp only [set_reference]
  rw [if_neg (by omega)]

lemma apply_terminal_weights_ok (N : Nat) (term : StateWeight) (idx : Nat)
    (v : AcadoVars) (h : idx < N) :
    apply_terminal_weights N term idx v =
      Except.ok (apply_nominal_write term idx (idx + 1) v) := by
  have hm : min (idx + 1) N = idx + 1 := by omega
  simp only [apply_terminal_weights]
  rw [if_neg (by omega), apply_nominal_weights_ok N term idx (idx + 1) v (by omega), hm]

lemma backfill_safe_count_le (N : Nat) (traj : Trajectory) (ci c : Nat) :
    backfill_safe_count N traj ci c ≤ c := by
  simp only [backfill_safe_count]
  omega

lemma backfill_start_add_safe_le (N : Nat) (traj : Trajectory) (ci c : Nat) :
    backfill_traj_start N traj ci c + backfill_safe_count N traj ci c ≤
      traj.points.length := by
  simp only [backfill_safe_count, backfill_traj_start]
  omega

lemma backfill_reference_ok (N : Nat) (term : StateWeight) (traj : Trajectory)
    (ci c : Nat) (v : AcadoVars) (h : c < N) :
    ∃ v', backfill_reference N term traj ci c v = Except.ok v' := by
  have hsc := backfill_safe_count_le N traj ci c
  simp only [backfill_reference]
  rw [if_neg (by omega),
    set_reference_ok N traj (N - c) _ _ v (by omega) (backfill_start_add_safe_le N traj ci c)]
  by_cases hlt : backfill_safe_count N traj ci c < c
  · simp only [if_pos hlt,
      zero_nominal_weights_ok N (N - (c - backfill_safe_count N traj ci c)) N _ (by omega),
      apply_terminal_weights_ok N term (N - ((c - backfill_safe_count N traj ci c) + 1)) _
        (by omega)]
    by_cases hfin : backfill_traj_start N traj ci c + c < traj.points.length
    · rw [if_pos hfin]; exact ⟨_, rfl⟩
    · rw [if_neg hfin]; exact ⟨_, rfl⟩
  · simp only [if_neg hlt]
    by_cases hfin : backfill_traj_start N traj ci c + c < traj.points.length
    · rw [if_pos hfin]; exact ⟨_, rfl⟩
    · rw [if_neg hfin]; exact ⟨_, rfl⟩

/-- Claim C2: Each operation raises IndexOutOfRange exactly under the specified
condition and under no other: `set_reference(traj, y_start, traj_start,
count)` raises iff `y_start+count > N` or `traj_start+count > |traj|`;
`apply_nominal_weights(profile, start, end)` and
`zero_nominal_weights(start, end)` raise iff `start > min(end, N)`;
`apply_terminal_weights(idx)` raises iff `idx ≥ N`; `advance_problem(count)`
and `backfill_reference(count)` raise iff `count ≥ N`. -/
theorem claim_C2_bounds_enforcement (N NU : Nat) (cfg term : StateWeight)
    (traj : Trajectory) (y_start traj_start count start end_ idx curr_idx : Nat)
    (v : AcadoVars) :
    (isErr (set_reference N traj y_start traj_start count v) = true ↔
      y_start + count > N ∨ traj_start + count > traj.points.length) ∧
    (isErr (apply_nominal_weights N cfg start end_ v) = true ↔
      start > min end_ N) ∧
    (isErr (zero_nominal_weights N start end_ v) = true ↔
      start > min end_ N) ∧
    (isErr (apply_terminal_weights N term idx v) = true ↔ idx ≥ N) ∧
    (isErr (advance_problem N NU count v) = true ↔ count ≥ N) ∧
    (isErr (backfill_reference N term traj curr_idx count v) = true ↔ count ≥ N) := by
  refine ⟨?_, ?_, ?_, ?_, ?_, ?_⟩
  · simp only [set_reference]
    by_cases h : y_start + count > N ∨ traj_start + count > traj.points.length
    · rw [if_pos h]; simpa [isErr] using h
    · rw [if_neg h]; simpa [isErr] using h
  · simp only [apply_nominal_weights]
    by_cases h : start > min end_ N
    · rw [if_pos h]; simpa [isErr] using h
    · rw [if_neg h]; simpa [isErr] using h
  · simp only [zero_nominal_weights]
    by_cases h : start > min N end_
    · rw [if_pos h]; exact iff_of_true rfl (by omega)
    · rw [if_neg h]; exact iff_of_false (fun hh => Bool.noConfusion hh) (by omega)
  · by_cases h : idx ≥ N
    · simp only [apply_terminal_weights]
      rw [if_pos h]; exact iff_of_true rfl h
    · rw [apply_terminal_weights_ok N term idx v (by omega)]
      exact iff_of_false (fun hh => Bool.noConfusion hh) (by omega)
  · simp only [advance_problem]
    by_cases h : N ≤ count
    · rw [if_pos h]; exact iff_of_true rfl h
    · rw [if_neg h]; exact iff_of_false (fun hh => Bool.noConfusion hh) (by omega)
  · by_cases h : N ≤ count
    · simp only [backfill_reference]
      rw [if_pos h]; exact iff_of_true rfl h
    · obtain ⟨v', hv⟩ := backfill_reference_ok N term traj curr_idx count v (by omega)
      rw [hv]; exact iff_of_false (fun hh => Bool.noConfusion hh) (by omega)

/-- Claim C10: For every `count < N`, every stored trajectory length and every
temporal index, once `backfill_reference(count)` passes its own count-bound
check none of its internal calls can raise: the `set_reference` call
satisfies `ref_start + safe_count ≤ N` and `traj_start + safe_count ≤
|traj|`, the `zero_nominal_weights` call satisfies `N - remainder ≤ N`, and
the `apply_terminal_weights` call (taken only when `remainder ≥ 1`) receives
an index in `[0, N)`; all error branches of the callees are unreachable. -/
theorem claim_C10_backfill_internal_safety (N : Nat) (term : StateWeight)
    (traj : Trajectory) (curr_idx count : Nat) (v : AcadoVars) (h : count < N) :
    BackfillSafe N term traj curr_idx count v := by
  refine ⟨backfill_reference_ok N term traj curr_idx count v h, ?_, ?_, ?_⟩
  · have := backfill_safe_count_le N traj curr_idx count
    omega
  · exact backfill_start_add_safe_le N traj curr_idx count
  · intro hlt
    omega

/-- Witness for C10 at `N = 10`, `count = 5`, the two-point trajectory. -/
theorem claim_C10_backfill_internal_safety_witness :
    5 < 10 ∧ BackfillSafe 10 sw1 traj2 0 5 v0 :=
  ⟨by decide, claim_C10_backfill_internal_safety 10 sw1 traj2 0 5 v0 (by decide)⟩

/-- Claim C8: For every `count` with `0 ≤ count < N`, `advance_problem(count)`
leaves `state[0]` (the measurement slot) unchanged and modifies nothing
outside the state, stage-reference and control arrays: every stage weight,
the terminal weight and the terminal reference are unchanged by the call. -/
theorem claim_C8_advance_frame (N NU count : Nat) (v : AcadoVars)
    (h : count < N) : AdvanceFrame N NU count v := by
  refine ⟨advance_write N NU count v, by rw [advance_problem, if_neg (by omega)],
    ?_, rfl, rfl, rfl, rfl⟩
  intro r hr
  have hc : ¬ (NX ≤ r ∧ r < NX + NX * (N - count)) := by
    simp only [NX] at hr ⊢; omega
  simp only [advance_write, if_neg hc]

/-- Witness for C8 at `N = 2`, `NU = 1`, `count = 1` on the all-zero block. -/
theorem claim_C8_advance_frame_witness :
    1 < 2 ∧ AdvanceFrame 2 1 1 v0 :=
  ⟨by decide, claim_C8_advance_frame 2 1 1 v0 (by decide)⟩

lemma set_reference_write_y (traj : Trajectory) (a b c i r : Nat) (v : AcadoVars)
    (hi : i < c) (hr : r < NY) :
    (set_reference_write traj a b c v).y (NY * (a + i) + r) =
      (if r = 0 then (traj.points.getD (b + i) ⟨0, 0, 0, 0⟩).x
       else if r = 1 then (traj.points.getD (b + i) ⟨0, 0, 0, 0⟩).y
       else if r = 2 then to_angle (traj.points.getD (b + i) ⟨0, 0, 0, 0⟩).heading
       else (traj.points.getD (b + i) ⟨0, 0, 0, 0⟩).longitudinal_velocity_mps) := by
  simp only [NY] at hr ⊢
  simp only [set_reference_write, NY]
  have hd : (4 * (a + i) + r) / 4 = a + i := by omega
  have hm : (4 * (a + i) + r) % 4 = r := by omega
  rw [hd, hm, if_pos (by omega : a ≤ a + i ∧ a + i < a + c)]
  have hsub : a + i - a = i := by omega
  rw [hsub]

/-- Claim C7: For every call with valid bounds (`y_start+count ≤ N` and
`traj_start+count ≤ |traj|`), `set_reference(traj, y_start, traj_start,
count)` sets, for every `i < count`, the x, y and longitudinal-velocity
fields of `stage_ref[y_start+i]` to exactly those of `traj[traj_start+i]`,
and sets its heading to the angle conversion of that waypoint's heading,
which round-trips through the conversion within `1e-6` rad. -/
theorem claim_C7_reference_copy (N : Nat) (traj : Trajectory)
    (y_start traj_start count : Nat) (v : AcadoVars)
    (h1 : y_start + count ≤ N) (h2 : traj_start + count ≤ traj.points.length) :
    SetRefCopies N traj y_start traj_start count v := by
  refine ⟨_, set_reference_ok N traj y_start traj_start count v h1 h2, ?_⟩
  intro i hi
  refine ⟨?_, ?_, ?_, ?_, ?_⟩
  · rw [set_reference_write_y traj y_start traj_start count i 0 v hi (by simp [NY])]
    norm_num
  · rw [set_reference_write_y traj y_start traj_start count i 1 v hi (by simp [NY])]
    norm_num
  · rw [set_reference_write_y traj y_start traj_start count i 3 v hi (by simp [NY])]
    norm_num
  · rw [set_reference_write_y traj y_start traj_start count i 2 v hi (by simp [NY])]
    norm_num
  · rw [set_reference_write_y traj y_start traj_start count i 2 v hi (by simp [NY])]
    norm_num [to_angle, from_angle]

/-- Witness for C7 at `N = 1`, one copied waypoint of the two-point
trajectory. -/
theorem claim_C7_reference_copy_witness :
    (0 + 1 ≤ 1 ∧ 0 + 1 ≤ traj2.points.length) ∧ SetRefCopies 1 traj2 0 0 1 v0 :=
  ⟨⟨by decide, by simp [traj2]⟩,
    claim_C7_reference_copy 1 traj2 0 0 1 v0 (by decide) (by simp [traj2])⟩

lemma offdiag_apply_nominal_write (N : Nat) (cfg : StateWeight) (s e : Nat)
    (v : AcadoVars) (h : OffDiagZero N v) :
    OffDiagZero N (apply_nominal_write cfg s e v) := by
  obtain ⟨hW, hWN⟩ := h
  refine ⟨?_, hWN⟩
  intro j hj hd
  simp only [NY] at hd hj ⊢
  simp only [apply_nominal_write, NY]
  split_ifs with h1 h2 h3 h4 h5
  · exact absurd h2 (by omega)
  · exact absurd h3 (by omega)
  · exact absurd h4 (by omega)
  · exact absurd h5 (by omega)
  · exact hW j (by simp only [NY]; omega) (by simp only [NY]; omega)
  · exact hW j (by simp only [NY]; omega) (by simp only [NY]; omega)

lemma offdiag_zero_nominal_write (N s e : Nat) (v : AcadoVars)
    (h : OffDiagZero N v) : OffDiagZero N (zero_nominal_write s e v) := by
  obtain ⟨hW, hWN⟩ := h
  refine ⟨?_, hWN⟩
  intro j hj hd
  simp only [zero_nominal_write]
  split_ifs with h1
  · rfl
  · exact hW j hj hd

lemma offdiag_set_terminal_weights (N : Nat) (cfg : StateWeight) (v : AcadoVars)
    (h : OffDiagZero N v) : OffDiagZero N (set_terminal_weights cfg v) := by
  obtain ⟨hW, hWN⟩ := h
  refine ⟨hW, ?_⟩
  intro j hj hd
  simp only [NYN] at hd hj ⊢
  simp only [set_terminal_weights, NYN]
  split_ifs with h1 h2 h3 h4
  · exact absurd h1 (by omega)
  · exact absurd h2 (by omega)
  · exact absurd h3 (by omega)
  · exact absurd h4 (by omega)
  · exact hWN j (by simp only [NYN]; omega) (by simp only [NYN]; omega)

lemma offdiag_zero_terminal_weights (N : Nat) (v : AcadoVars)
    (h : OffDiagZero N v) : OffDiagZero N (zero_terminal_weights v) := by
  obtain ⟨hW, hWN⟩ := h
  refine ⟨hW, ?_⟩
  intro j hj hd
  simp only [zero_terminal_weights]
  split_ifs with h1
  · rfl
  · exact hWN j hj hd

lemma offdiag_set_reference_write (N : Nat) (traj : Trajectory) (a b c : Nat)
    (v : AcadoVars) (h : OffDiagZero N v) :
    OffDiagZero N (set_reference_write traj a b c v) := ⟨h.1, h.2⟩

lemma offdiag_set_terminal_reference (N : Nat) (pt : Point) (v : AcadoVars)
    (h : OffDiagZero N v) : OffDiagZero N (set_terminal_reference pt v) := ⟨h.1, h.2⟩

lemma offdiag_advance_write (N NU c : Nat) (v : AcadoVars)
    (h : OffDiagZero N v) : OffDiagZero N (advance_write N NU c v) := ⟨h.1, h.2⟩

lemma preserves_apply_nominal (N : Nat) (cfg : StateWeight) (s e : Nat)
    (v : AcadoVars) (h : OffDiagZero N v) :
    PreservesOffDiag N (apply_nominal_weights N cfg s e v) := by
  intro w hw
  simp only [apply_nominal_weights] at hw
  by_cases h1 : s > min e N
  · rw [if_pos h1] at hw; exact Except.noConfusion hw
  · rw [if_neg h1] at hw
    injection hw with hw2
    subst hw2
    exact offdiag_apply_nominal_write N cfg s (min e N) v h

lemma preserves_zero_nominal (N s e : Nat) (v : AcadoVars) (h : OffDiagZero N v) :
    PreservesOffDiag N (zero_nominal_weights N s e v) := by
  intro w hw
  simp only [zero_nominal_weights] at hw
  by_cases h1 : s > min N e
  · rw [if_pos h1] at hw; exact Except.noConfusion hw
  · rw [if_neg h1] at hw
    injection hw with hw2
    subst hw2
    exact offdiag_zero_nominal_write N s (min N e) v h

lemma preserves_apply_terminal (N : Nat) (term : StateWeight) (idx : Nat)
    (v : AcadoVars) (h : OffDiagZero N v) :
    PreservesOffDiag N (apply_terminal_weights N term idx v) := by
  intro w hw
  by_cases h1 : idx ≥ N
  · simp only [apply_terminal_weights, if_pos h1] at hw
    exact Except.noConfusion hw
  · rw [apply_terminal_weights_ok N term idx v (by omega)] at hw
    injection hw with hw2
    subst hw2
    exact offdiag_apply_nominal_write N term idx (idx + 1) v h

lemma apply_weights_eq (N : Nat) (nom term : StateWeight) (v : AcadoVars) :
    apply_weights N nom term v =
      Except.ok (set_terminal_weights term (apply_nominal_write nom 0 (min N N) v)) := by
  unfold apply_weights
  rw [apply_nominal_weights_ok N nom 0 N v (by omega)]

lemma preserves_apply_weights (N : Nat) (nom term : StateWeight) (v : AcadoVars)
    (h : OffDiagZero N v) : PreservesOffDiag N (apply_weights N nom term v) := by
  intro w hw
  rw [apply_weights_eq] at hw
  injection hw with hw2
  subst hw2
  exact offdiag_set_terminal_weights N term _
    (offdiag_apply_nominal_write N nom 0 (min N N) v h)

lemma preserves_set_reference (N : Nat) (traj : Trajectory) (a b c : Nat)
    (v : AcadoVars) (h : OffDiagZero N v) :
    PreservesOffDiag N (set_reference N traj a b c v) := by
  intro w hw
  simp only [set_reference] at hw
  by_cases h1 : a + c > N ∨ b + c > traj.points.length
  · rw [if_pos h1] at hw; exact Except.noConfusion hw
  · rw [if_neg h1] at hw
    injection hw with hw2
    subst hw2
    exact offdiag_set_reference_write N traj a b c v h

lemma preserves_advance (N NU c : Nat) (v : AcadoVars) (h : OffDiagZero N v) :
    PreservesOffDiag N (advance_problem N NU c v) := by
  intro w hw
  simp only [advance_problem] at hw
  by_cases h1 : N ≤ c
  · rw [if_pos h1] at hw; exact Except.noConfusion hw
  · rw [if_neg h1] at hw
    injection hw with hw2
    subst hw2
    exact offdiag_advance_write N NU c v h

lemma preserves_backfill (N : Nat) (term : StateWeight) (traj : Trajectory)
    (ci c : Nat) (v : AcadoVars) (h : OffDiagZero N v) :
    PreservesOffDiag N (backfill_reference N term traj ci c v) := by
  intro w hw
  by_cases hc : N ≤ c
  · simp only [backfill_reference, if_pos hc] at hw
    exact Except.noConfusion hw
  · have hsc := backfill_safe_count_le N traj ci c
    have hX : OffDiagZero N (set_reference_write traj (N - c)
        (backfill_traj_start N traj ci c) (backfill_safe_count N traj ci c) v) :=
      offdiag_set_reference_write N traj _ _ _ v h
    simp only [backfill_reference, if_neg hc,
      set_reference_ok N traj (N - c) _ _ v (by omega)
        (backfill_start_add_safe_le N traj ci c)] at hw
    by_cases hlt : backfill_safe_count N traj ci c < c
    · simp only [if_pos hlt,
        zero_nominal_weights_ok N (N - (c - backfill_safe_count N traj ci c)) N _
          (by omega),
        apply_terminal_weights_ok N term
          (N - ((c - backfill_safe_count N traj ci c) + 1)) _ (by omega)] at hw
      have hY : OffDiagZero N (apply_nominal_write term
          (N - ((c - backfill_safe_count N traj ci c) + 1))
          (N - ((c - backfill_safe_count N traj ci c) + 1) + 1)
          (zero_nominal_write (N - (c - backfill_safe_count N traj ci c)) (min N N)
            (set_reference_write traj (N - c) (backfill_traj_start N traj ci c)
              (backfill_safe_count N traj ci c) v))) :=
        offdiag_apply_nominal_write N term _ _ _
          (offdiag_zero_nominal_write N _ _ _ hX)
      by_cases hfin : backfill_traj_start N traj ci c + c < traj.points.length
      · rw [if_pos hfin] at hw
        injection hw with hw2
        subst hw2
        exact offdiag_set_terminal_reference N _ _ hY
      · rw [if_neg hfin] at hw
        injection hw with hw2
        subst hw2
        exact offdiag_zero_terminal_weights N _ hY
    · simp only [if_neg hlt] at hw
      by_cases hfin : backfill_traj_start N traj ci c + c < traj.points.length
      · rw [if_pos hfin] at hw
        injection hw with hw2
        subst hw2
        exact offdiag_set_terminal_reference N _ _ hX
      · rw [if_neg hfin] at hw
        injection hw with hw2
        subst hw2
        exact offdiag_zero_terminal_weights N _ hX

lemma preserves_handle_new_core (N : Nat) (nom term : StateWeight)
    (traj : Trajectory) (v : AcadoVars) (h : OffDiagZero N v) :
    PreservesOffDiagHN N (handle_new_core N nom term traj v) := by
  intro p hp
  have ht1 : t_max N traj ≤ N := by simp only [t_max]; omega
  have ht2 : t_max N traj ≤ traj.points.length := by simp only [t_max]; omega
  have hX : OffDiagZero N (set_reference_write traj 0 0 (t_max N traj) v) :=
    offdiag_set_reference_write N traj _ _ _ v h
  have hY : OffDiagZero N (apply_nominal_write nom 0 (min (t_max N traj) N)
      (set_reference_write traj 0 0 (t_max N traj) v)) :=
    offdiag_apply_nominal_write N nom _ _ _ hX
  simp only [handle_new_core,
    set_reference_ok N traj 0 0 (t_max N traj) v (by omega) (by omega),
    apply_nominal_weights_ok N nom 0 (t_max N traj) _ (by omega)] at hp
  by_cases hz : t_max N traj < N
  · simp only [if_pos hz,
      zero_nominal_weights_ok N (t_max N traj) N _ (by omega)] at hp
    have hZ : OffDiagZero N (zero_nominal_write (t_max N traj) (min N N)
        (apply_nominal_write nom 0 (min (t_max N traj) N)
          (set_reference_write traj 0 0 (t_max N traj) v))) :=
      offdiag_zero_nominal_write N _ _ _ hY
    by_cases hge : t_max N traj ≥ traj.points.length
    · rw [if_pos hge] at hp
      by_cases hti : size_t_sub_one traj.points.length ≥ N
      · simp only [apply_terminal_weights, if_pos hti] at hp
        exact Except.noConfusion hp
      · rw [apply_terminal_weights_ok N term (size_t_sub_one traj.points.length) _
          (by omega)] at hp
        injection hp with hp2
        subst hp2
        exact offdiag_apply_nominal_write N term _ _ _
          (offdiag_zero_terminal_weights N _ hZ)
    · rw [if_neg hge] at hp
      injection hp with hp2
      subst hp2
      exact offdiag_set_terminal_reference N _ _ hZ
  · simp only [if_neg hz] at hp
    by_cases hge : t_max N traj ≥ traj.points.length
    · rw [if_pos hge] at hp
      by_cases hti : size_t_sub_one traj.points.length ≥ N
      · simp only [apply_terminal_weights, if_pos hti] at hp
        exact Except.noConfusion hp
      · rw [apply_terminal_weights_ok N term (size_t_sub_one traj.points.length) _
          (by omega)] at hp
        injection hp with hp2
        subst hp2
        exact offdiag_apply_nominal_write N term _ _ _
          (offdiag_zero_terminal_weights N _ hY)
    · rw [if_neg hge] at hp
      injection hp with hp2
      subst hp2
      exact offdiag_set_terminal_reference N _ _ hY

/-- Claim C9: If every off-diagonal entry of every stage weight matrix and of
the terminal weight matrix is zero before a call, it is still zero after any
public operation: no operation ever writes a non-zero off-diagonal weight
entry. -/
theorem claim_C9_offdiag_invariant (N NU : Nat) (v : AcadoVars)
    (nom term : StateWeight) (traj : Trajectory)
    (start end_ idx count y_start traj_start curr_idx horizon : Nat) (pt : Point)
    (sampler : Option (Trajectory → Trajectory)) (h : OffDiagZero N v) :
    OffDiagPreservedAll N NU v nom term traj start end_ idx count y_start
      traj_start curr_idx horizon pt sampler := by
  refine ⟨preserves_apply_nominal N nom start end_ v h,
    preserves_zero_nominal N start end_ v h,
    offdiag_set_terminal_weights N term v h,
    offdiag_zero_terminal_weights N v h,
    preserves_apply_terminal N term idx v h,
    preserves_apply_weights N nom term v h,
    preserves_set_reference N traj y_start traj_start count v h,
    offdiag_set_terminal_reference N pt v h,
    ?_,
    preserves_advance N NU count v h,
    preserves_backfill N term traj curr_idx count v h,
    ⟨h.1, h.2⟩⟩
  intro p hp
  exact preserves_handle_new_core N nom term (effective_traj sampler traj) v h p hp

/-- Witness for C9 at `N = 1` on the all-zero block. -/
theorem claim_C9_offdiag_invariant_witness :
    OffDiagZero 1 v0 ∧
      OffDiagPreservedAll 1 1 v0 sw1 sw1 traj2 0 0 0 0 0 0 0 0 ⟨1, 2, 3, 4⟩ none :=
  ⟨⟨fun _ _ _ => rfl, fun _ _ _ => rfl⟩,
    claim_C9_offdiag_invariant 1 1 v0 sw1 sw1 traj2 0 0 0 0 0 0 0 0 ⟨1, 2, 3, 4⟩ none
      ⟨fun _ _ _ => rfl, fun _ _ _ => rfl⟩⟩

/-- Claim C4 counterexample: With an empty trajectory and no resampler
configured, `handle_new_trajectory` does raise: the claim that it completes
without error is false.  (`t_max = 0` takes the `t_max ≥ |traj|` branch and
`apply_terminal_weights(|traj| - 1)` receives the underflowed `size_t` value
`2^64 - 1 ≥ N`.) -/
theorem claim_C4_counterexample :
    trajEmpty.points.length = 0 ∧
    isErr (handle_new_trajectory 10 sw1 sw1 none trajEmpty v0) = true :=
  ⟨rfl, rfl⟩

/-- Claim C4 amended: Calling `handle_new_trajectory` with an empty
trajectory (no resampler configured) raises IndexOutOfRange: the
`size_t` computation `|traj| - 1` underflows to `2^64 - 1`, which fails the
`idx ≥ N` guard of `apply_terminal_weights` (for any horizon `N ≤ 2^64 - 1`).
The empty-trajectory edge case is not clamped to a zero-length copy. -/
theorem claim_C4_amended_empty_raises (N : Nat) (nom term : StateWeight)
    (v : AcadoVars) (h : N ≤ 2 ^ 64 - 1) :
    isErr (handle_new_trajectory N nom term none trajEmpty v) = true := by
  have hlen : trajEmpty.points.length = 0 := rfl
  have ht : t_max N trajEmpty = 0 := by simp [t_max, hlen]
  have hsub0 : size_t_sub_one 0 = 2 ^ 64 - 1 := by norm_num [size_t_sub_one]
  show isErr (handle_new_core N nom term trajEmpty v) = true
  simp only [handle_new_core, ht, hlen, hsub0,
    set_reference_ok N trajEmpty 0 0 0 v (by omega) (by omega),
    apply_nominal_weights_ok N nom 0 0 _ (by omega)]
  by_cases hz : 0 < N
  · simp only [if_pos hz, zero_nominal_weights_ok N 0 N _ (by omega)]
    rw [if_pos (show (0 : Nat) ≥ 0 from Nat.le_refl 0)]
    simp only [apply_terminal_weights, if_pos (show 2 ^ 64 - 1 ≥ N from h)]
    rfl
  · simp only [if_neg hz]
    rw [if_pos (show (0 : Nat) ≥ 0 from Nat.le_refl 0)]
    simp only [apply_terminal_weights, if_pos (show 2 ^ 64 - 1 ≥ N from h)]
    rfl

/-- Witness for the amended C4 at `N = 10` on the all-zero block. -/
theorem claim_C4_amended_empty_raises_witness :
    10 ≤ 2 ^ 64 - 1 ∧ isErr (handle_new_trajectory 10 sw1 sw1 none trajEmpty v0) = true :=
  ⟨by norm_num, claim_C4_amended_empty_raises 10 sw1 sw1 v0 (by norm_num)⟩

/-- Claim C5: With horizon `N = 10` and a 5-point trajectory (no resampler
configured), `handle_new_trajectory` leaves every stage weight for stages in
`[5, 10)` zero, leaves stage 4 carrying the terminal weight profile on its
diagonal, and leaves the terminal weight entirely zero (granting the
data-model invariant that its off-diagonal entries were zero before the
call). -/
theorem claim_C5_short_trajectory (nom term : StateWeight) (traj : Trajectory)
    (v : AcadoVars) (hlen : traj.points.length = 5)
    (hWN : ∀ j, j < 16 → j % 5 ≠ 0 → v.WN j = 0) :
    HandleShortTraj nom term traj v := by
  have ht : t_max 10 traj = 5 := by simp [t_max, hlen]
  have hs4 : size_t_sub_one 5 = 4 := by norm_num [size_t_sub_one]
  have heq : handle_new_trajectory 10 nom term none traj v =
      Except.ok (apply_nominal_write term 4 5 (zero_terminal_weights
        (zero_nominal_write 5 (min 10 10) (apply_nominal_write nom 0 (min 5 10)
          (set_reference_write traj 0 0 5 v)))), traj) := by
    show handle_new_core 10 nom term traj v = _
    simp only [handle_new_core, ht, hlen, hs4,
      set_reference_ok 10 traj 0 0 5 v (by omega) (by omega),
      apply_nominal_weights_ok 10 nom 0 5 _ (by omega),
      zero_nominal_weights_ok 10 5 10 _ (by omega),
      apply_terminal_weights_ok 10 term 4 _ (by omega),
      if_pos (show (5 : Nat) < 10 by norm_num),
      if_pos (show (5 : Nat) ≥ 5 from Nat.le_refl 5)]
  refine ⟨_, heq, ?_, ?_, ?_, ?_, ?_, ?_⟩
  · intro j hj1 hj2
    simp only [apply_nominal_write, zero_terminal_weights, zero_nominal_write, NY]
    rw [if_neg (by omega : ¬ (4 ≤ j / (4 * 4) ∧ j / (4 * 4) < 5))]
    rw [if_pos (by omega : 5 * (4 * 4) ≤ j ∧ j < min 10 10 * (4 * 4))]
  · simp only [apply_nominal_write, NY]
    rw [if_pos (by norm_num : 4 ≤ 64 / (4 * 4) ∧ 64 / (4 * 4) < 5)]
    norm_num
  · simp only [apply_nominal_write, NY]
    rw [if_pos (by norm_num : 4 ≤ 69 / (4 * 4) ∧ 69 / (4 * 4) < 5)]
    norm_num
  · simp only [apply_nominal_write, NY]
    rw [if_pos (by norm_num : 4 ≤ 74 / (4 * 4) ∧ 74 / (4 * 4) < 5)]
    norm_num
  · simp only [apply_nominal_write, NY]
    rw [if_pos (by norm_num : 4 ≤ 79 / (4 * 4) ∧ 79 / (4 * 4) < 5)]
    norm_num
  · intro j hj
    simp only [apply_nominal_write, zero_terminal_weights, zero_nominal_write,
      set_reference_write, NYN]
    split_ifs with hd
    · rfl
    · exact hWN j hj (by omega)

/-- Witness for C5 on the five-point trajectory and the all-zero block. -/
theorem claim_C5_short_trajectory_witness :
    (traj5.points.length = 5 ∧ ∀ j, j < 16 → j % 5 ≠ 0 → v0.WN j = 0) ∧
      HandleShortTraj sw1 sw1 traj5 v0 :=
  ⟨⟨rfl, fun _ _ _ => rfl⟩,
    claim_C5_short_trajectory sw1 sw1 traj5 v0 rfl (fun _ _ _ => rfl)⟩

/-- Claim C3 counterexample: With `N = 10`, `curr_idx = 0` and a stored
trajectory of exactly 2 points (so `|traj| - curr_idx = 2`),
`backfill_reference(5)` copies no trajectory points at all: the x-slots of
tail stages 5 and 6 (flat entries 20 and 24) still hold the pre-call marker
`7`, not the trajectory x-values `42`/`46` — refuting "copies 2 real
trajectory points ... and zeroes the remaining 3 tail stages". -/
theorem claim_C3_counterexample :
    traj2.points.length = 0 + 2 ∧
    (traj2.points.getD 0 ⟨0, 0, 0, 0⟩).x = 42 ∧
    (traj2.points.getD 1 ⟨0, 0, 0, 0⟩).x = 46 ∧
    (42 : ℝ) ≠ 7 ∧ (46 : ℝ) ≠ 7 ∧
    ∃ v', backfill_reference 10 sw1 traj2 0 5 vMark = Except.ok v' ∧
      v'.y 20 = 7 ∧ v'.y 24 = 7 ∧ v'.W 80 = 0 :=
  ⟨rfl, rfl, rfl, by norm_num, by norm_num, ⟨_, rfl, rfl, rfl, rfl⟩⟩

/-- Claim C3 amended: With horizon `N = 10` and a stored trajectory with
exactly 2 points left beyond the tracked temporal index
(`|traj| = curr_idx + 2`), the pull window of `backfill_reference(5)` starts
past the end of the trajectory and is clamped empty (`safe_count = 0`), so it
copies 0 real trajectory points, zeroes the stage weights of all 5 tail
stages `[5, 10)`, applies the terminal weight profile to stage 4 (the stage
immediately preceding the zeroed block), and zeroes the terminal weight
diagonal. -/
theorem claim_C3_amended_backfill (term : StateWeight) (traj : Trajectory)
    (curr_idx : Nat) (v : AcadoVars) (hlen : traj.points.length = curr_idx + 2) :
    BackfillExhausted term traj curr_idx v := by
  have hts : backfill_traj_start 10 traj curr_idx 5 = curr_idx + 2 := by
    simp only [backfill_traj_start, hlen]; omega
  have hsc : backfill_safe_count 10 traj curr_idx 5 = 0 := by
    simp only [backfill_safe_count, backfill_traj_start, hlen]; omega
  have heq : backfill_reference 10 term traj curr_idx 5 v =
      Except.ok (zero_terminal_weights (apply_nominal_write term 4 5
        (zero_nominal_write 5 (min 10 10) (set_reference_write traj 5 (curr_idx + 2) 0 v)))) := by
    simp only [backfill_reference, hsc, hts, hlen,
      if_neg (show ¬ (10 : Nat) ≤ 5 by norm_num),
      set_reference_ok 10 traj (10 - 5) (curr_idx + 2) 0 v (by omega) (by omega),
      if_pos (show (0 : Nat) < 5 by norm_num),
      zero_nominal_weights_ok 10 (10 - (5 - 0)) 10 _ (by omega),
      apply_terminal_weights_ok 10 term (10 - (5 - 0 + 1)) _ (by omega),
      if_neg (show ¬ (curr_idx + 2 + 5 < curr_idx + 2) by omega)]
  refine ⟨_, heq, ?_, ?_, ?_, ?_, ?_, ?_, ?_, ?_, ?_, ?_⟩
  · funext j
    simp only [zero_terminal_weights, apply_nominal_write, zero_nominal_write,
      set_reference_write, NY]
    rw [if_neg (by omega : ¬ (5 ≤ j / 4 ∧ j / 4 < 5 + 0))]
  · intro j hj1 hj2
    simp only [zero_terminal_weights, apply_nominal_write, zero_nominal_write, NY]
    rw [if_neg (by omega : ¬ (4 ≤ j / (4 * 4) ∧ j / (4 * 4) < 5))]
    rw [if_pos (by omega : 5 * (4 * 4) ≤ j ∧ j < min 10 10 * (4 * 4))]
  · simp only [zero_terminal_weights, apply_nominal_write, NY]
    rw [if_pos (by norm_num : 4 ≤ 64 / (4 * 4) ∧ 64 / (4 * 4) < 5)]
    norm_num
  · simp only [zero_terminal_weights, apply_nominal_write, NY]
    rw [if_pos (by norm_num : 4 ≤ 69 / (4 * 4) ∧ 69 / (4 * 4) < 5)]
    norm_num
  · simp only [zero_terminal_weights, apply_nominal_write, NY]
    rw [if_pos (by norm_num : 4 ≤ 74 / (4 * 4) ∧ 74 / (4 * 4) < 5)]
    norm_num
  · simp only [zero_terminal_weights, apply_nominal_write, NY]
    rw [if_pos (by norm_num : 4 ≤ 79 / (4 * 4) ∧ 79 / (4 * 4) < 5)]
    norm_num
  · simp only [zero_terminal_weights, NYN]; norm_num
  · simp only [zero_terminal_weights, NYN]; norm_num
  · simp only [zero_terminal_weights, NYN]; norm_num
  · simp only [zero_terminal_weights, NYN]; norm_num

/-- Witness for the amended C3 on the two-point trajectory. -/
theorem claim_C3_amended_backfill_witness :
    traj2.points.length = 0 + 2 ∧ BackfillExhausted sw1 traj2 0 v0 :=
  ⟨rfl, claim_C3_amended_backfill sw1 traj2 0 v0 rfl⟩

lemma atan2_sin_cos {θ : ℝ} (h1 : -Real.pi < θ) (h2 : θ ≤ Real.pi) :
    atan2 (Real.sin θ) (Real.cos θ) = θ := by
  unfold atan2
  have hmk : (⟨Real.cos θ, Real.sin θ⟩ : ℂ) =
      Complex.cos θ + Complex.sin θ * Complex.I := by
    rw [Complex.mk_eq_add_mul_I, Complex.ofReal_cos, Complex.ofReal_sin]
  rw [hmk, Complex.arg_cos_add_sin_mul_I ⟨h1, h2⟩]

lemma unwrap_step_self (l : ℝ) : unwrap_step l l = (l, 0) := by
  unfold unwrap_step
  rw [sub_self,
    atan2_sin_cos (by linarith [Real.pi_pos]) (le_of_lt Real.pi_pos)]
  norm_num

lemma unwrap_step_unwind : unwrap_step (-3) 3 = (3 - 2 * Real.pi, 2 * Real.pi) := by
  unfold unwrap_step
  have h6 : (3 : ℝ) - -3 = 6 := by norm_num
  rw [h6, (Real.sin_sub_two_pi 6).symm, (Real.cos_sub_two_pi 6).symm,
    atan2_sin_cos (by linarith [Real.pi_lt_d2]) (by linarith [Real.pi_gt_three])]
  have e2 : |(-3 : ℝ) + (6 - 2 * Real.pi) - 3| = 2 * Real.pi := by
    rw [show (-3 : ℝ) + (6 - 2 * Real.pi) - 3 = -(2 * Real.pi) by ring, abs_neg,
      abs_of_pos (by positivity)]
  rw [e2, show (-3 : ℝ) + (6 - 2 * Real.pi) = 3 - 2 * Real.pi by ring]

lemma consistency_fold_exV6 :
    consistency_fold [0, 1] yEx (-3) 0 =
      (Function.update (Function.update yEx 2 (-3)) 6 (3 - 2 * Real.pi),
       3 - 2 * Real.pi, 2 * Real.pi) := by
  have hy2 : yEx 2 = -3 := by norm_num [yEx]
  have hy6 : yEx 6 = 3 := by norm_num [yEx]
  have hu6 : Function.update yEx 2 (-3) 6 = 3 := by
    rw [Function.update_noteq (by norm_num)]
    norm_num [yEx]
  simp only [consistency_fold, NY]
  norm_num [hy2, hy6, unwrap_step_self, hu6, unwrap_step_unwind]

lemma ensure_exV6 :
    ensure_reference_consistency 2 2 exV6 =
      ({ exV6 with
          y := Function.update (Function.update yEx 2 (-3)) 6 (3 - 2 * Real.pi),
          yN := Function.update yNEx 2 (3 - 2 * Real.pi) }, true) := by
  have hx0 : exV6.x0 IDX_HEADING = -3 := by norm_num [exV6, IDX_HEADING]
  have hyN : exV6.yN 2 = 3 - 2 * Real.pi := by norm_num [exV6, yNEx]
  have hyy : exV6.y = yEx := rfl
  simp only [ensure_reference_consistency, hx0, hyy, hyN]
  rw [show min 2 2 = 2 from rfl, show List.range 2 = [0, 1] from rfl,
    consistency_fold_exV6]
  norm_num [unwrap_step_self]
  exact ⟨rfl, by linarith [Real.pi_gt_d2]⟩

/-- Claim C6 counterexample: In a buffer whose consecutive stage reference
headings are `-3.0` rad then `3.0` rad with `state[0]`'s heading at `-3.0`
rad, `ensure_reference_consistency` returns `true`, not `false` as claimed:
`err` accumulates the full `2π` magnitude of the unwrap adjustment made to
the second stored heading, which exceeds the `3.14159` threshold. -/
theorem claim_C6_counterexample :
    exV6.x0 2 = -3 ∧ exV6.y 2 = -3 ∧ exV6.y 6 = 3 ∧
    (ensure_reference_consistency 2 2 exV6).2 = true := by
  refine ⟨by norm_num [exV6], by norm_num [exV6, yEx], by norm_num [exV6, yEx], ?_⟩
  rw [ensure_exV6]

/-- Claim C6 amended: If two consecutive stage reference headings are `-3.0`
rad then `3.0` rad (with `state[0]`'s heading at `-3.0` rad), then after
`ensure_reference_consistency` the two stored headings differ by at most
`0.3` rad (the second becomes `3 - 2π`), but the accumulated `err` includes
the full `2π` unwrap adjustment, exceeds the `3.14159` threshold, and the
function returns `true`. -/
theorem claim_C6_amended_unwrap :
    (ensure_reference_consistency 2 2 exV6).1.y 2 = -3 ∧
    (ensure_reference_consistency 2 2 exV6).1.y 6 = 3 - 2 * Real.pi ∧
    |(ensure_reference_consistency 2 2 exV6).1.y 2 -
      (ensure_reference_consistency 2 2 exV6).1.y 6| ≤ 0.3 ∧
    (ensure_reference_consistency 2 2 exV6).2 = true := by
  rw [ensure_exV6]
  have hy2 : (Function.update (Function.update yEx 2 (-3 : ℝ)) 6 (3 - 2 * Real.pi)) 2 =
      (-3 : ℝ) := by
    rw [Function.update_noteq (by norm_num), Function.update_same]
  have hy6 : (Function.update (Function.update yEx 2 (-3 : ℝ)) 6 (3 - 2 * Real.pi)) 6 =
      3 - 2 * Real.pi := Function.update_same 6 _ _
  refine ⟨hy2, hy6, ?_, rfl⟩
  show |(-3 : ℝ) - (3 - 2 * Real.pi)| ≤ 0.3
  rw [show (-3 : ℝ) - (3 - 2 * Real.pi) = 2 * Real.pi - 6 by ring,
    abs_of_nonneg (by linarith [Real.pi_gt_three])]
  linarith [Real.pi_lt_d2]

end Mpc
